import Mathlib

/-!
Verification of the tgParser harvest-tick core against its specification.

The definitions below are a shallow embedding of the Python sources:
  - src/tgparser/worker.py            (distributed lock, tick driver)
  - src/tgparser/telethon/selector.py (account selector, membership upsert)
  - src/tgparser/parser_engine.py     (per-channel parse step, quarantine)
  - src/tgparser/membership_maintenance.py (membership maintenance pass)
  - src/tgparser/notify.py            (best-effort notifier)
  - src/tgparser/models.py plus the alembic migrations that extend it
    (account_channel_memberships table, AccountStatus.forbidden enum value,
     accounts.last_used_at, channels.peer_id).

Timestamps are modelled as integers (seconds); machine strings as Lean
strings.  Python str.strip / str slicing are modelled explicitly so that
every definition is kernel-computable.
-/

namespace TgParser

/-! ### Python string primitives -/

/-- Model of Python str.strip(): drop leading and trailing whitespace. -/
def pyStrip (s : String) : String :=
  String.mk (((s.data.dropWhile Char.isWhitespace).reverse.dropWhile Char.isWhitespace).reverse)

/-- Model of the Python slice note[:5000] used to truncate error notes. -/
def pyTruncate (n : Nat) (s : String) : String :=
  String.mk (s.data.take n)

/-- Model of the Python idiom a or b on strings (empty string is falsy). -/
def pyOr (a b : String) : String :=
  if a = "" then b else a

/-! ### Enumerations (src/tgparser/models.py and migrations)

AccountStatus is modelled from the spec for the member that is absent from
src/tgparser/models.py.  Modelled from the spec: the value
AccountStatus.forbidden is missing from the enum in src/tgparser/models.py,
but migration aa12bb34cc56 adds the forbidden label to the accountstatus
database enum and parser_engine.py quarantines deactivated accounts with
AccountStatus.forbidden; spec section 3 lists
status in {active, cooldown, banned, auth_required, forbidden, error}. -/

inductive AccountStatus where
  | active
  | cooldown
  | banned
  | auth_required
  | forbidden
  | error
deriving DecidableEq, Repr

inductive ChannelType where
  | public
  | «private»
deriving DecidableEq, Repr

inductive ChannelAccessStatus where
  | active
  | join_requested
  | pending_approval
  | joined
  | forbidden
  | error
deriving DecidableEq, Repr

/-- Membership status enum, from the accountchannelstatus enum declared by
migration e2a6c9b1a7f0 (account_channel_memberships table). -/
inductive AccountChannelStatus where
  | unknown
  | join_requested
  | pending_approval
  | joined
  | forbidden
  | error
deriving DecidableEq, Repr

/-! ### Records -/

/-- Account row (accounts table); fields the core reads or writes. -/
structure Account where
  id : Nat
  is_active : Bool
  status : AccountStatus
  cooldown_until : Option Int
  last_error : String
  session_string : String
  last_used_at : Option Int
  updated_at : Int
deriving DecidableEq, Repr

/-- Channel row (channels table); fields the core reads or writes. -/
structure Channel where
  id : Nat
  type : ChannelType
  identifier : String
  is_active : Bool
  backfill_days : Int
  access_status : ChannelAccessStatus
  cursor_message_id : Option Int
  peer_id : Option Int
deriving DecidableEq, Repr

/-- Membership row (account_channel_memberships table, migration e2a6c9b1a7f0). -/
structure Membership where
  account_id : Nat
  channel_id : Nat
  status : AccountChannelStatus
  note : String
  join_requested_at : Option Int
  joined_at : Option Int
  forbidden_at : Option Int
  last_checked_at : Option Int
  updated_at : Int
deriving DecidableEq, Repr

/-! ### Distributed lock (src/tgparser/worker.py)

The redis key is modelled as an optional value (the stored token) plus its
remaining TTL.  The two Lua scripts are conditional delete and conditional
expire: both compare GET key with the callers token first. -/

structure LockState where
  value : Option String
  ttl : Int
deriving DecidableEq, Repr

/-- Model of acquire_lock: SET key token NX EX ttl.  Returns the new state
and whether acquisition succeeded. -/
def acquire_lock (token : String) (ttlArg : Int) (st : LockState) : LockState × Bool :=
  match st.value with
  | some _ => (st, false)
  | none => ({ value := some token, ttl := ttlArg }, true)

/-- Model of release_lock and _RELEASE_LOCK_LUA: delete the key only when its
current value equals the callers token.  Returns the new state and the DEL
count (1 when deleted, 0 otherwise). -/
def release_lock (token : String) (st : LockState) : LockState × Int :=
  match st.value with
  | some v => if v = token then ({ value := none, ttl := 0 }, 1) else (st, 0)
  | none => (st, 0)

/-- Model of _lock_refresher and _REFRESH_LOCK_LUA: re-arm the TTL only when
the current value equals the callers token.  Returns the new state and the
EXPIRE result (1 when extended, 0 otherwise). -/
def refresh_lock (token : String) (ttlArg : Int) (st : LockState) : LockState × Int :=
  match st.value with
  | some v => if v = token then ({ value := some v, ttl := ttlArg }, 1) else (st, 0)
  | none => (st, 0)

/-! ### Account selector (src/tgparser/telethon/selector.py) -/

/-- Model of _is_ready_account_clause: is_active AND status = active AND
(cooldown_until IS NULL OR cooldown_until <= now) AND session_string != "". -/
def is_ready_account (now : Int) (a : Account) : Bool :=
  a.is_active
    && decide (a.status = AccountStatus.active)
    && (match a.cooldown_until with
        | none => true
        | some t => decide (t ≤ now))
    && decide (a.session_string ≠ "")

/-- Lookup of the unique membership row for (account_id, channel_id). -/
def findMembership (db : List Membership) (accountId channelId : Nat) : Option Membership :=
  db.find? (fun m => decide (m.account_id = accountId) && decide (m.channel_id = channelId))

/-- Status of the membership row joined by the selector (none when no row). -/
def memStatusFor (db : List Membership) (accountId channelId : Nat) : Option AccountChannelStatus :=
  (findMembership db accountId channelId).map Membership.status

/-- Candidate rows of the selector query: ready accounts, minus the exclusion
set; for private channels the LEFT JOIN on memberships drops accounts whose
membership for this channel is forbidden. -/
def selectorCandidates (accounts : List Account) (memberships : List Membership)
    (ch : Channel) (exclude : List Nat) (now : Int) : List Account :=
  let base := accounts.filter (fun a => is_ready_account now a && !(exclude.contains a.id))
  if ch.type = ChannelType.«private» then
    base.filter (fun a =>
      decide (memStatusFor memberships a.id ch.id ≠ some AccountChannelStatus.forbidden))
  else base

/-- Composite ORDER BY key of the selector, lexicographic:
(joined-first rank for private channels, last_used_at NULLS FIRST rank,
last_used_at value, account id). -/
abbrev SelectorKey := Lex (Nat × Lex (Nat × Lex (Int × Nat)))

/-- NULLS FIRST rank of last_used_at (0 for NULL, 1 for a value). -/
def lastUsedNullRank : Option Int → Nat
  | none => 0
  | some _ => 1

/-- Ascending component of last_used_at (ties on NULL are broken by id). -/
def lastUsedTime : Option Int → Int
  | none => 0
  | some t => t

/-- CASE WHEN membership.status = joined THEN 0 ELSE 1 END, applied only for
private channels (public channels have no membership sort clause). -/
def joinedRank (memberships : List Membership) (ch : Channel) (a : Account) : Nat :=
  if ch.type = ChannelType.«private» then
    if memStatusFor memberships a.id ch.id = some AccountChannelStatus.joined then 0 else 1
  else 0

/-- Full sort key of the selector query for one account row. -/
def selectorKey (memberships : List Membership) (ch : Channel) (a : Account) : SelectorKey :=
  toLex (joinedRank memberships ch a,
    toLex (lastUsedNullRank a.last_used_at, toLex (lastUsedTime a.last_used_at, a.id)))

/-- First row of the ordered query: the key-minimal candidate. -/
def chooseMin (key : Account → SelectorKey) : List Account → Option Account
  | [] => none
  | a :: rest =>
    match chooseMin key rest with
    | none => some a
    | some b => if key a ≤ key b then some a else some b

/-- Model of pick_account_for_channel: the first row of the candidate query
under the selector ordering, or none. -/
def pick_account_for_channel (accounts : List Account) (memberships : List Membership)
    (ch : Channel) (exclude : List Nat) (now : Int) : Option Account :=
  chooseMin (selectorKey memberships ch) (selectorCandidates accounts memberships ch exclude now)

/-! ### Parser engine: per-channel parse step (src/tgparser/parser_engine.py)

The parse section of parse_new_posts_once (cursor resolution, message loop,
row staging, cursor advance) is modelled as a pure function of the channel
row, the resolved entity, whether any Post row exists for the channel, the
current time, and the upstream message stream. -/

/-- Resolved upstream entity (telethon attributes the engine reads). -/
structure Entity where
  id : Option Int
  username : Option String
  title : Option String
deriving DecidableEq, Repr

/-- Message yielded by iter_messages; date of none models a date attribute
that is not a datetime (published_at then falls back to now). -/
structure FetchedMsg where
  id : Int
  text : String
  date : Option Int
deriving DecidableEq, Repr

/-- Row staged for the bulk INSERT into posts. -/
structure PostRow where
  channel_id : Nat
  message_id : Int
  original_url : String
  published_at : Int
  text : String
  created_at : Int
deriving DecidableEq, Repr

/-- Model of _build_message_url: public URL from the username (entity
username, else channel identifier), else the private t.me/c/ form when the
entity id is a positive integer, else empty. -/
def build_message_url (ch : Channel) (ent : Entity) (messageId : Int) : String :=
  let username :=
    pyStrip (String.mk ((pyOr (ent.username.getD "") ch.identifier).data.dropWhile (fun c => c == '@')))
  if username ≠ "" then
    "https://t.me/" ++ username ++ "/" ++ toString messageId
  else
    match ent.id with
    | some entId =>
        if entId > 0 then "https://t.me/c/" ++ toString entId ++ "/" ++ toString messageId
        else ""
    | none => ""

/-- Row dict appended for one kept message. -/
def stageRow (ch : Channel) (ent : Entity) (now published : Int) (m : FetchedMsg) : PostRow :=
  { channel_id := ch.id, message_id := m.id,
    original_url := build_message_url ch ent m.id,
    published_at := published, text := pyStrip m.text, created_at := now }

/-- Model of the async for loop over msg_iter: normalize the date, stop in
backfill mode once a message older than the threshold appears, skip
empty-text messages, skip ids at or below the cursor, otherwise track
max_seen_id and stage the row.  Returns the staged rows and max_seen_id. -/
def msgLoop (ch : Channel) (ent : Entity) (cursor : Int) (backfillSince : Option Int) (now : Int) :
    List FetchedMsg → Int → List PostRow × Int
  | [], maxSeen => ([], maxSeen)
  | m :: rest, maxSeen =>
      let published := match m.date with | some d => d | none => now
      if (match backfillSince with
          | some since => decide (published < since)
          | none => false) = true then
        ([], maxSeen)
      else if pyStrip m.text = "" then
        msgLoop ch ent cursor backfillSince now rest maxSeen
      else if m.id ≤ cursor then
        msgLoop ch ent cursor backfillSince now rest maxSeen
      else
        let r := msgLoop ch ent cursor backfillSince now rest (max maxSeen m.id)
        (stageRow ch ent now published m :: r.1, r.2)

/-- Model of int(db_ch.cursor_message_id or 0). -/
def storedCursor (ch : Channel) : Int :=
  match ch.cursor_message_id with
  | none => 0
  | some c => c

/-- Effective cursor of the parse step: the stored cursor, except that a
positive cursor with no Post rows for the channel is reset to 0
(first-parse resync safety). -/
def effectiveCursor (ch : Channel) (hasPosts : Bool) : Int :=
  let cursor := storedCursor ch
  if cursor > 0 ∧ hasPosts = false then 0 else cursor

/-- Running max of staged message ids, seeded with the effective cursor. -/
def foldMaxId (c : Int) (rows : List PostRow) : Int :=
  rows.foldl (fun x r => max x r.message_id) c

/-- Outcome of one successful parse step for a channel. -/
structure ParseStepResult where
  rows : List PostRow
  cursor_message_id : Int
  access_status : ChannelAccessStatus
deriving DecidableEq, Repr

/-- Iteration mode of the parse step: backfill threshold plus limit 2000 on
a first parse with backfill, limit 20 on a first parse without backfill, and
the unlimited incremental stream past the cursor otherwise. -/
def parseMode (ch : Channel) (hasPosts : Bool) (now : Int) (stream : List FetchedMsg) :
    Option Int × List FetchedMsg :=
  let cursor := effectiveCursor ch hasPosts
  let backfillDays := max 0 ch.backfill_days
  if cursor ≤ 0 ∧ backfillDays > 0 then
    (some (now - backfillDays * 86400), stream.take 2000)
  else if cursor ≤ 0 then
    ((none : Option Int), stream.take 20)
  else
    ((none : Option Int), stream)

/-- Model of the parse section of parse_new_posts_once: pick the iteration
mode (backfill with limit 2000 and a time threshold, first-parse tail with
limit 20, or incremental past the cursor), run the message loop, and advance
cursor_message_id to max_seen_id when it grew. -/
def parse_step (ch : Channel) (ent : Entity) (hasPosts : Bool) (now : Int)
    (stream : List FetchedMsg) : ParseStepResult :=
  let accessStatus :=
    if ch.access_status = ChannelAccessStatus.active ∨ ch.access_status = ChannelAccessStatus.joined
    then ch.access_status else ChannelAccessStatus.joined
  let cursor := effectiveCursor ch hasPosts
  let p := parseMode ch hasPosts now stream
  let r := msgLoop ch ent cursor p.1 now p.2 cursor
  { rows := r.1,
    cursor_message_id := if r.2 > cursor then r.2 else cursor,
    access_status := accessStatus }

/-! ### Membership upsert (src/tgparser/telethon/selector.py) -/

/-- Field assignments performed by upsert_membership on the (new or
existing) row: status, truncated note, check stamps, and first-transition
stamps preserved once set. -/
def applyMembershipStatus (m : Membership) (status : AccountChannelStatus)
    (note : String) (now : Int) : Membership :=
  { m with
    status := status
    note := pyTruncate 5000 note
    last_checked_at := some now
    updated_at := now
    join_requested_at :=
      if status = AccountChannelStatus.join_requested
          ∨ status = AccountChannelStatus.pending_approval then
        some (m.join_requested_at.getD now)
      else m.join_requested_at
    joined_at :=
      if status = AccountChannelStatus.joined then some (m.joined_at.getD now)
      else m.joined_at
    forbidden_at :=
      if status = AccountChannelStatus.forbidden then some (m.forbidden_at.getD now)
      else m.forbidden_at }

/-- Row constructed by AccountChannelMembership(account_id, channel_id) with
the column defaults, before upsert_membership assigns its fields. -/
def blankMembership (accountId channelId : Nat) : Membership :=
  { account_id := accountId, channel_id := channelId,
    status := AccountChannelStatus.unknown, note := "",
    join_requested_at := none, joined_at := none, forbidden_at := none,
    last_checked_at := none, updated_at := 0 }

/-- Model of upsert_membership: update the unique (account, channel) row in
place, or insert a fresh row. -/
def upsert_membership (db : List Membership) (accountId channelId : Nat)
    (status : AccountChannelStatus) (note : String) (now : Int) : List Membership :=
  if db.any (fun m => decide (m.account_id = accountId) && decide (m.channel_id = channelId)) then
    db.map (fun m =>
      if m.account_id = accountId ∧ m.channel_id = channelId then
        applyMembershipStatus m status note now
      else m)
  else
    db ++ [applyMembershipStatus (blankMembership accountId channelId) status note now]

/-! ### Invite-approval guardrail (parser_engine.py and
membership_maintenance.py) -/

/-- Pending statuses guarded against duplicate join requests. -/
def isPendingStatus (s : AccountChannelStatus) : Bool :=
  decide (s = AccountChannelStatus.join_requested)
    || decide (s = AccountChannelStatus.pending_approval)

/-- SQL existence check used by both guardrails: some membership row of the
channel has status join_requested or pending_approval. -/
def anyPendingForChannel (db : List Membership) (channelId : Nat) : Bool :=
  db.any (fun m => decide (m.channel_id = channelId) && isPendingStatus m.status)

/-- Number of pending membership rows of a channel. -/
def pendingCount (db : List Membership) (channelId : Nat) : Nat :=
  db.countP (fun m => decide (m.channel_id = channelId) && isPendingStatus m.status)

/-- Guardrail invariant: at most one pending membership row per channel. -/
abbrev atMostOnePending (db : List Membership) (channelId : Nat) : Prop :=
  pendingCount db channelId ≤ 1

/-- Number of membership rows for one (account, channel) pair; the schema
unique constraint uq_account_channel keeps it at most 1. -/
def accountChannelRowCount (db : List Membership) (accountId channelId : Nat) : Nat :=
  db.countP (fun m => decide (m.account_id = accountId) && decide (m.channel_id = channelId))

/-- What the parser attempt loop did about joining for one account. -/
inductive JoinAttemptAction where
  | skippedOwnPending
  | skippedGuardrail
  | imported (outcome : ChannelAccessStatus)
deriving DecidableEq, Repr

/-- Membership status written by the parser for each ensure_joined
access_status outcome (the elif chain); active matches no branch. -/
def membershipStatusOfJoinOutcome : ChannelAccessStatus → Option AccountChannelStatus
  | ChannelAccessStatus.joined => some AccountChannelStatus.joined
  | ChannelAccessStatus.join_requested => some AccountChannelStatus.join_requested
  | ChannelAccessStatus.pending_approval => some AccountChannelStatus.pending_approval
  | ChannelAccessStatus.forbidden => some AccountChannelStatus.forbidden
  | ChannelAccessStatus.error => some AccountChannelStatus.error
  | ChannelAccessStatus.active => none

/-- Model of the join phase of the parser attempt loop for an unresolved
private channel: skip when this account already holds a join_requested or
pending_approval membership, skip when ANY membership row for the channel is
pending (global guardrail), otherwise call ensure_joined (its access_status
outcome is an input here) and persist the membership outcome. -/
def parserJoinAttempt (db : List Membership) (accountId channelId : Nat)
    (joinOutcome : ChannelAccessStatus) (note : String) (now : Int) :
    JoinAttemptAction × List Membership :=
  let memStatus := memStatusFor db accountId channelId
  if memStatus = some AccountChannelStatus.join_requested
      ∨ memStatus = some AccountChannelStatus.pending_approval then
    (JoinAttemptAction.skippedOwnPending, db)
  else if anyPendingForChannel db channelId then
    (JoinAttemptAction.skippedGuardrail, db)
  else
    match membershipStatusOfJoinOutcome joinOutcome with
    | some s =>
        (JoinAttemptAction.imported joinOutcome,
         upsert_membership db accountId channelId s note now)
    | none => (JoinAttemptAction.imported joinOutcome, db)

/-! ### Membership maintenance (src/tgparser/membership_maintenance.py) -/

/-- Backoff constant: re-check dialogs for pending requests every 6 hours. -/
def JOIN_REQUEST_DIALOGS_RECHECK_EVERY : Int := 6 * 3600

/-- Backoff constant: retry error memberships every 30 minutes. -/
def ERROR_RETRY_EVERY : Int := 30 * 60

/-- Backoff constant: refresh joined memberships every 24 hours. -/
def JOINED_REFRESH_EVERY : Int := 24 * 3600

/-- Model of _should_recheck: no stamp yet, or stamp + window has passed. -/
def should_recheck (lastCheckedAt : Option Int) (every now : Int) : Bool :=
  match lastCheckedAt with
  | none => true
  | some t => decide (t + every ≤ now)

/-- Dispatch outcome of one (account, channel) maintenance iteration. -/
inductive MaintAction where
  | recheckDialogs
  | skipRecheckWindow
  | refreshJoined
  | skipJoinedWindow
  | noopForbidden
  | skipErrorWindow
  | skipPendingGuardrail
  | callJoinService
deriving DecidableEq, Repr

/-- Membership status of the row for the pair, unknown when no row exists. -/
def memStatusOrUnknown (db : List Membership) (accountId channelId : Nat) : AccountChannelStatus :=
  match findMembership db accountId channelId with
  | some m => m.status
  | none => AccountChannelStatus.unknown

/-- last_checked_at of the row for the pair, none when no row exists. -/
def memLastChecked (db : List Membership) (accountId channelId : Nat) : Option Int :=
  match findMembership db accountId channelId with
  | some m => m.last_checked_at
  | none => none

/-- Dispatch of ensure_membership_once for one (account, channel) pair, in
source order: pending statuses only re-check dialogs when the 6-hour window
elapsed; joined refreshes on a 24-hour window; forbidden is a no-op; the
30-minute retry window gates only status error; then the pending guardrail;
otherwise the join service is called. -/
def maintenanceAction (memStatus : AccountChannelStatus) (lastChecked : Option Int)
    (anyPending : Bool) (now : Int) : MaintAction :=
  if memStatus = AccountChannelStatus.join_requested
      ∨ memStatus = AccountChannelStatus.pending_approval then
    if should_recheck lastChecked JOIN_REQUEST_DIALOGS_RECHECK_EVERY now then
      MaintAction.recheckDialogs
    else MaintAction.skipRecheckWindow
  else if memStatus = AccountChannelStatus.joined then
    if should_recheck lastChecked JOINED_REFRESH_EVERY now then MaintAction.refreshJoined
    else MaintAction.skipJoinedWindow
  else if memStatus = AccountChannelStatus.forbidden then
    MaintAction.noopForbidden
  else if memStatus = AccountChannelStatus.error
      ∧ should_recheck lastChecked ERROR_RETRY_EVERY now = false then
    MaintAction.skipErrorWindow
  else if anyPending then
    MaintAction.skipPendingGuardrail
  else
    MaintAction.callJoinService

/-- Upstream outcomes consumed by one maintenance iteration. -/
structure MaintOracle where
  entityInDialogs : Bool
  authorized : Bool
  joinOutcome : ChannelAccessStatus
  joinNote : String
deriving DecidableEq, Repr

/-- Membership status persisted by maintenance for each join-service
access_status value (the value-string chain; the else branch writes error). -/
def maintMembershipStatusOfOutcome : ChannelAccessStatus → AccountChannelStatus
  | ChannelAccessStatus.joined => AccountChannelStatus.joined
  | ChannelAccessStatus.join_requested => AccountChannelStatus.join_requested
  | ChannelAccessStatus.pending_approval => AccountChannelStatus.pending_approval
  | ChannelAccessStatus.forbidden => AccountChannelStatus.forbidden
  | ChannelAccessStatus.active => AccountChannelStatus.error
  | ChannelAccessStatus.error => AccountChannelStatus.error

/-- One (account, channel) iteration of ensure_membership_once: read the
membership row and the pending flag from one snapshot, dispatch, and persist
the resulting membership write, if any.  An unauthorized client only flags
the account (auth_required) and leaves memberships unchanged. -/
def ensure_membership_step (db : List Membership) (accountId channelId : Nat)
    (o : MaintOracle) (now : Int) : MaintAction × List Membership :=
  let action := maintenanceAction (memStatusOrUnknown db accountId channelId)
    (memLastChecked db accountId channelId) (anyPendingForChannel db channelId) now
  match action with
  | MaintAction.recheckDialogs =>
      (action,
       if o.entityInDialogs then
         upsert_membership db accountId channelId AccountChannelStatus.joined
           "entity found in dialogs (approved)" now
       else db)
  | MaintAction.refreshJoined =>
      (action,
       if o.entityInDialogs then db
       else
         upsert_membership db accountId channelId AccountChannelStatus.error
           "joined previously but missing from dialogs" now)
  | MaintAction.callJoinService =>
      (action,
       if o.authorized then
         upsert_membership db accountId channelId
           (maintMembershipStatusOfOutcome o.joinOutcome) o.joinNote now
       else db)
  | a => (a, db)

/-! ### Account quarantine and the UserDeactivated handler
(src/tgparser/parser_engine.py) -/

/-- Model of _quarantine_account: set the given status, soft-disable the
account, clear cooldown, record the truncated note, stamp updated_at. -/
def quarantine_account (acc : Account) (status : AccountStatus) (note : String)
    (now : Int) : Account :=
  { acc with
    status := status
    is_active := false
    cooldown_until := none
    last_error := pyTruncate 5000 note
    updated_at := now }

/-- Outcome of the except UserDeactivatedError branch of the attempt loop. -/
structure UserDeactivatedHandled where
  account : Account
  exclude : List Nat
  notified_admin : Bool
  notified_team : Bool
  continues : Bool
deriving DecidableEq, Repr

/-- Model of the except UserDeactivatedError handler: add the account to the
exclusion set, quarantine it with status forbidden, await notify_admin and
notify_team, and continue the attempt loop. -/
def handle_user_deactivated (acc : Account) (exclude : List Nat) (note : String)
    (now : Int) : UserDeactivatedHandled :=
  { account := quarantine_account acc AccountStatus.forbidden note now
    exclude := acc.id :: exclude
    notified_admin := true
    notified_team := true
    continues := true }

/-! ### Notifier (src/tgparser/notify.py) -/

/-- Result of a Python coroutine call: returned normally or raised. -/
inductive PyResult (α : Type) where
  | ok (val : α)
  | raised
deriving DecidableEq, Repr

/-- Sends performed by one notifier call. -/
structure NotifyOutcome where
  attempted : List Int
  delivered : List Int
deriving DecidableEq, Repr

/-- Environment and upstream outcomes of one notifier call: whether Bot
construction succeeds, the configured admin chat id, whether the BotUser
query succeeds, the staff recipient ids it returns, and the per-chat send
outcome.  The message text does not influence control flow. -/
structure NotifyEnv where
  bot_ctor_ok : Bool
  admin_chat_id : Option Int
  store_ok : Bool
  staff_ids : List Int
  send_ok : Int → Bool

/-- Model of notify_admin: return early when no chat id is configured (a
falsy 0 included); construct the Bot outside any try block, so a
construction failure raises to the caller; the send and the session close
are each wrapped and swallowed. -/
def notify_admin (env : NotifyEnv) : PyResult NotifyOutcome :=
  match env.admin_chat_id with
  | none => PyResult.ok { attempted := [], delivered := [] }
  | some chatId =>
      if chatId = 0 then PyResult.ok { attempted := [], delivered := [] }
      else if env.bot_ctor_ok = false then PyResult.raised
      else
        PyResult.ok
          { attempted := [chatId]
            delivered := if env.send_ok chatId then [chatId] else [] }

/-- Per-recipient send loop of notify_team: each send has its own
try/except, so a failure is logged and the loop continues. -/
def team_send_loop (env : NotifyEnv) : List Int → NotifyOutcome
  | [] => { attempted := [], delivered := [] }
  | uid :: rest =>
      let r := team_send_loop env rest
      { attempted := uid :: r.attempted
        delivered := if env.send_ok uid then uid :: r.delivered else r.delivered }

/-- Recipient ids kept by notify_team from the query rows (truthy ids). -/
def team_recipients (env : NotifyEnv) : List Int :=
  env.staff_ids.filter (fun x => decide (x ≠ 0))

/-- Model of notify_team: Bot construction outside the try block raises on
failure; a store failure is swallowed by the outer except (no sends); the
send loop runs inside the outer try with per-recipient handling; the close
is swallowed. -/
def notify_team (env : NotifyEnv) : PyResult NotifyOutcome :=
  if env.bot_ctor_ok = false then PyResult.raised
  else if env.store_ok = false then PyResult.ok { attempted := [], delivered := [] }
  else PyResult.ok (team_send_loop env (team_recipients env))

/-! ### Concrete fixtures used by witnesses -/

/-- Ready account with a lapsed cooldown and no last_used_at. -/
def accReady1 : Account :=
  { id := 1, is_active := true, status := AccountStatus.active, cooldown_until := some (-5),
    last_error := "", session_string := "s1", last_used_at := none, updated_at := 0 }

/-- Ready account previously used at time 10. -/
def accReady2 : Account :=
  { id := 2, is_active := true, status := AccountStatus.active, cooldown_until := none,
    last_error := "", session_string := "s2", last_used_at := some 10, updated_at := 0 }

/-- Public test channel. -/
def chPub : Channel :=
  { id := 1, type := ChannelType.public, identifier := "demo", is_active := true,
    backfill_days := 0, access_status := ChannelAccessStatus.active,
    cursor_message_id := none, peer_id := none }

/-- Private test channel with a known peer id. -/
def chPriv : Channel :=
  { id := 2, type := ChannelType.«private», identifier := "+h", is_active := true,
    backfill_days := 0, access_status := ChannelAccessStatus.active,
    cursor_message_id := none, peer_id := some 77 }

/-- Joined membership of account 2 in the private test channel. -/
def memJoined2 : Membership :=
  { account_id := 2, channel_id := 2, status := AccountChannelStatus.joined, note := "",
    join_requested_at := none, joined_at := some 1, forbidden_at := none,
    last_checked_at := some 1, updated_at := 1 }

/-- Public test entity. -/
def entDemo : Entity :=
  { id := some 55, username := some "demo", title := none }

/-- Channel whose stored cursor is 100. -/
def chCursor100 : Channel :=
  { id := 3, type := ChannelType.public, identifier := "demo", is_active := true,
    backfill_days := 0, access_status := ChannelAccessStatus.joined,
    cursor_message_id := some 100, peer_id := none }

/-- Message with id 5 and non-empty text. -/
def msg5 : FetchedMsg :=
  { id := 5, text := "hi", date := some 50 }

/-- Channel on its first parse with 2 days of backfill. -/
def chBackfill2d : Channel :=
  { id := 4, type := ChannelType.public, identifier := "demo", is_active := true,
    backfill_days := 2, access_status := ChannelAccessStatus.active,
    cursor_message_id := none, peer_id := none }

/-- Recent message (id 9) inside the 2-day backfill window ending at now = 0. -/
def msgRecent9 : FetchedMsg :=
  { id := 9, text := "y", date := some (-1000) }

/-- Old message before the 2-day backfill window ending at now = 0. -/
def msgOld1 : FetchedMsg :=
  { id := 1, text := "z", date := some (-200000) }

/-- Channel with cursor 3 and existing posts (incremental mode). -/
def chCursor3 : Channel :=
  { id := 5, type := ChannelType.public, identifier := "demo", is_active := true,
    backfill_days := 0, access_status := ChannelAccessStatus.joined,
    cursor_message_id := some 3, peer_id := none }

/-- Message with id 6 whose text normalizes to empty. -/
def msgBlank6 : FetchedMsg :=
  { id := 6, text := " ", date := some 1 }

/-- Message with id 7 and non-empty text. -/
def msg7 : FetchedMsg :=
  { id := 7, text := "x", date := some 2 }

/-- Pending-approval membership of account 2 in channel 9. -/
def memPendingOther : Membership :=
  { account_id := 2, channel_id := 9, status := AccountChannelStatus.pending_approval,
    note := "", join_requested_at := some 5, joined_at := none, forbidden_at := none,
    last_checked_at := some 5, updated_at := 5 }

/-- Membership row with status unknown checked 60 seconds before now = 1000. -/
def memUnknownRecent : Membership :=
  { account_id := 1, channel_id := 7, status := AccountChannelStatus.unknown, note := "",
    join_requested_at := none, joined_at := none, forbidden_at := none,
    last_checked_at := some 940, updated_at := 940 }

/-- Membership row with status error checked 60 seconds before now = 1000. -/
def memErrorRecent : Membership :=
  { account_id := 1, channel_id := 8, status := AccountChannelStatus.error, note := "x",
    join_requested_at := none, joined_at := none, forbidden_at := none,
    last_checked_at := some 940, updated_at := 940 }

/-- Maintenance oracle: authorized client, join succeeds. -/
def oracleJoin : MaintOracle :=
  { entityInDialogs := false, authorized := true,
    joinOutcome := ChannelAccessStatus.joined, joinNote := "joined public channel" }

/-- Notifier environment whose Bot construction raises. -/
def envBotFails : NotifyEnv :=
  { bot_ctor_ok := false, admin_chat_id := some 5, store_ok := true,
    staff_ids := [11, 12], send_ok := fun _ => true }

/-- Notifier environment with one send failure (recipient 12). -/
def envTeamOk : NotifyEnv :=
  { bot_ctor_ok := true, admin_chat_id := some 5, store_ok := true,
    staff_ids := [11, 0, 12], send_ok := fun u => decide (u ≠ 12) }

/-! ## Theorems -/

/-- Auxiliary: chooseMin returns none exactly on the empty list. -/
theorem chooseMin_eq_none (key : Account → SelectorKey) (l : List Account) :
    chooseMin key l = none ↔ l = [] := by
  cases l with
  | nil => simp [chooseMin]
  | cons a rest =>
      simp only [chooseMin]
      cases chooseMin key rest with
      | none => simp
      | some b =>
          by_cases h : key a ≤ key b <;> simp [h]

/-- Auxiliary: chooseMin returns an element of the list. -/
theorem chooseMin_mem (key : Account → SelectorKey) (l : List Account) (a : Account)
    (h : chooseMin key l = some a) : a ∈ l := by
  induction l with
  | nil => simp [chooseMin] at h
  | cons x rest ih =>
      simp only [chooseMin] at h
      cases hr : chooseMin key rest with
      | none =>
          rw [hr] at h
          simp only [Option.some.injEq] at h
          subst h
          exact List.mem_cons_self x rest
      | some b =>
          rw [hr] at h
          by_cases hk : key x ≤ key b
          · simp only [hk, if_true, Option.some.injEq] at h
            subst h
            exact List.mem_cons_self x rest
          · simp only [hk, if_false, Option.some.injEq] at h
            subst h
            exact List.mem_cons_of_mem x (ih hr)

/-- Auxiliary: chooseMin returns a key-minimal element. -/
theorem chooseMin_le (key : Account → SelectorKey) (l : List Account) (a : Account)
    (h : chooseMin key l = some a) : ∀ b ∈ l, key a ≤ key b := by
  induction l generalizing a with
  | nil => simp [chooseMin] at h
  | cons x rest ih =>
      intro b hb
      simp only [chooseMin] at h
      cases hr : chooseMin key rest with
      | none =>
          rw [hr] at h
          simp only [Option.some.injEq] at h
          subst h
          rcases List.mem_cons.mp hb with hbx | hbr
          · subst hbx; exact le_refl _
          · exact absurd ((chooseMin_eq_none key rest).mp hr ▸ hbr) (List.not_mem_nil b)
      | some c =>
          rw [hr] at h
          by_cases hk : key x ≤ key c
          · simp only [hk, if_true, Option.some.injEq] at h
            subst h
            rcases List.mem_cons.mp hb with hbx | hbr
            · subst hbx; exact le_refl _
            · exact le_trans hk (ih c hr b hbr)
          · simp only [hk, if_false, Option.some.injEq] at h
            subst h
            rcases List.mem_cons.mp hb with hbx | hbr
            · subst hbx; exact le_of_lt (lt_of_not_le hk)
            · exact ih c hr b hbr

/-- Auxiliary: membership in the candidate list implies the readiness filter
and the exclusion filter. -/
theorem mem_selectorCandidates (accounts : List Account) (memberships : List Membership)
    (ch : Channel) (exclude : List Nat) (now : Int) (a : Account)
    (h : a ∈ selectorCandidates accounts memberships ch exclude now) :
    a ∈ accounts ∧ is_ready_account now a = true ∧ exclude.contains a.id = false := by
  unfold selectorCandidates at h
  by_cases ht : ch.type = ChannelType.«private»
  · simp only [ht, if_true] at h
    have h1 := List.mem_filter.mp h
    have h2 := List.mem_filter.mp h1.1
    refine ⟨h2.1, ?_, ?_⟩
    · have := h2.2
      simp only [Bool.and_eq_true] at this
      exact this.1
    · have := h2.2
      simp only [Bool.and_eq_true, Bool.not_eq_true'] at this
      exact this.2
  · simp only [ht, if_false] at h
    have h2 := List.mem_filter.mp h
    refine ⟨h2.1, ?_, ?_⟩
    · have := h2.2
      simp only [Bool.and_eq_true] at this
      exact this.1
    · have := h2.2
      simp only [Bool.and_eq_true, Bool.not_eq_true'] at this
      exact this.2

/-- Auxiliary: the selector key determines the account id. -/
theorem selectorKey_eq_id (memberships : List Membership) (ch : Channel) (a b : Account)
    (h : selectorKey memberships ch a = selectorKey memberships ch b) : a.id = b.id := by
  unfold selectorKey at h
  have h1 := toLex.injective h
  have h2 := toLex.injective (congrArg Prod.snd h1)
  have h3 := toLex.injective (congrArg Prod.snd h2)
  exact congrArg Prod.snd h3

/-- C3: lock safety.  release_lock with token T deletes the key exactly when
the stored value equals T, and the refresher extends the TTL exactly when the
stored value equals its own token; when the stored value is a different
token (for example after expiry and re-acquisition by another holder) both
operations leave the state untouched and report 0. -/
theorem release_refresh_token_safety (t1 : String) (st : LockState) (ttlArg : Int) :
    ((release_lock t1 st).2 = 1 ↔ st.value = some t1)
    ∧ ((release_lock t1 st).2 = 1 → (release_lock t1 st).1.value = none)
    ∧ (st.value ≠ some t1 → release_lock t1 st = (st, 0))
    ∧ ((refresh_lock t1 ttlArg st).2 = 1 ↔ st.value = some t1)
    ∧ (st.value ≠ some t1 → refresh_lock t1 ttlArg st = (st, 0)) := by
  obtain ⟨v, ttl⟩ := st
  cases v with
  | none =>
      simp [release_lock, refresh_lock]
  | some w =>
      by_cases hw : w = t1
      · subst hw
        simp [release_lock, refresh_lock]
      · constructor
        · simp [release_lock, hw]
        · refine ⟨?_, ?_, ?_, ?_⟩
          · simp [release_lock, hw]
          · simp [release_lock, hw]
          · simp [refresh_lock, hw]
          · simp [refresh_lock, hw]

/-- Witness for C3: holder token a can neither delete nor refresh a lock
whose stored value is token b. -/
theorem release_refresh_token_safety_witness :
    release_lock "a" { value := some "b", ttl := 5 } = ({ value := some "b", ttl := 5 }, 0)
    ∧ refresh_lock "a" 7 { value := some "b", ttl := 5 } = ({ value := some "b", ttl := 5 }, 0) :=
  ⟨(release_refresh_token_safety "a" { value := some "b", ttl := 5 } 7).2.2.1 (by decide),
   (release_refresh_token_safety "a" { value := some "b", ttl := 5 } 7).2.2.2.2 (by decide)⟩

/-- C4: the selector returns an account only if it satisfies the ready
predicate (is_active, status = active, cooldown lapsed or absent, non-empty
session_string); in particular an account still in cooldown is never
returned and a banned account is never returned even with lapsed cooldown. -/
theorem selector_returns_only_ready (accounts : List Account) (memberships : List Membership)
    (ch : Channel) (exclude : List Nat) (now : Int) (a : Account)
    (hpick : pick_account_for_channel accounts memberships ch exclude now = some a) :
    is_ready_account now a = true
    ∧ a.is_active = true
    ∧ a.status = AccountStatus.active
    ∧ (∀ t, a.cooldown_until = some t → t ≤ now)
    ∧ a.session_string ≠ ""
    ∧ a.status ≠ AccountStatus.banned := by
  have hmem := chooseMin_mem _ _ _ hpick
  have hc := mem_selectorCandidates accounts memberships ch exclude now a hmem
  have hready := hc.2.1
  have h' := hready
  simp only [is_ready_account, Bool.and_eq_true, decide_eq_true_eq] at h'
  obtain ⟨⟨⟨hact, hstat⟩, hcool⟩, hsess⟩ := h'
  refine ⟨hready, hact, hstat, ?_, hsess, ?_⟩
  · intro t ht
    rw [ht] at hcool
    simpa using hcool
  · rw [hstat]
    intro hcon
    exact AccountStatus.noConfusion hcon

/-- Witness for C4: the picked fixture account is ready, its cooldown value
is in the past, and it is not banned. -/
theorem selector_returns_only_ready_witness :
    is_ready_account 0 accReady1 = true ∧ (-5 : Int) ≤ 0
    ∧ accReady1.status ≠ AccountStatus.banned := by
  have h := selector_returns_only_ready [accReady1, accReady2] [] chPub [] 0 accReady1 (by decide)
  exact ⟨h.1, h.2.2.2.1 (-5) rfl, h.2.2.2.2.2⟩

/-- C6: the selector returns a candidate that is minimal for the composite
ORDER BY key (joined memberships first for private channels, then
last_used_at ascending with NULLs first, then id ascending); any other
candidate with a different id is strictly greater in that order, so among
ready accounts with identical membership rank the older last_used_at wins
and ties are broken by ascending id. -/
theorem selector_order_lru (accounts : List Account) (memberships : List Membership)
    (ch : Channel) (exclude : List Nat) (now : Int) (a : Account)
    (hpick : pick_account_for_channel accounts memberships ch exclude now = some a) :
    a ∈ selectorCandidates accounts memberships ch exclude now
    ∧ (∀ b ∈ selectorCandidates accounts memberships ch exclude now,
        selectorKey memberships ch a ≤ selectorKey memberships ch b)
    ∧ (∀ b ∈ selectorCandidates accounts memberships ch exclude now,
        b.id ≠ a.id → selectorKey memberships ch a < selectorKey memberships ch b) := by
  have hmem := chooseMin_mem _ _ _ hpick
  have hle := chooseMin_le _ _ _ hpick
  refine ⟨hmem, hle, ?_⟩
  intro b hb hid
  refine lt_of_le_of_ne (hle b hb) ?_
  intro he
  exact hid (selectorKey_eq_id memberships ch a b he).symm

/-- Witness for C6: for a private channel the account with a joined
membership is picked and its key is strictly below the other ready account. -/
theorem selector_order_lru_witness :
    accReady2 ∈ selectorCandidates [accReady1, accReady2] [memJoined2] chPriv [] 0
    ∧ selectorKey [memJoined2] chPriv accReady2 < selectorKey [memJoined2] chPriv accReady1 := by
  have h := selector_order_lru [accReady1, accReady2] [memJoined2] chPriv [] 0 accReady2 (by decide)
  exact ⟨h.1, h.2.2 accReady1 (by decide) (by decide)⟩

/-- Auxiliary: max_seen_id equals the running max of staged ids seeded with
the initial value. -/
theorem msgLoop_fold (ch : Channel) (ent : Entity) (cursor : Int) (bs : Option Int) (now : Int) :
    ∀ (msgs : List FetchedMsg) (maxSeen : Int),
      (msgLoop ch ent cursor bs now msgs maxSeen).2
        = foldMaxId maxSeen (msgLoop ch ent cursor bs now msgs maxSeen).1 := by
  intro msgs
  induction msgs with
  | nil => intro maxSeen; simp [msgLoop, foldMaxId]
  | cons m rest ih =>
      intro maxSeen
      simp only [msgLoop]
      split
      · simp [foldMaxId]
      · split
        · exact ih maxSeen
        · split
          · exact ih maxSeen
          · simp only [foldMaxId, List.foldl_cons]
            simpa [foldMaxId, stageRow] using ih (max maxSeen m.id)

/-- Auxiliary: staged rows have non-empty normalized text, ids above the
cursor, and, in backfill mode, published_at at or after the threshold. -/
theorem msgLoop_rows_prop (ch : Channel) (ent : Entity) (cursor : Int) (bs : Option Int) (now : Int) :
    ∀ (msgs : List FetchedMsg) (maxSeen : Int),
      ∀ r ∈ (msgLoop ch ent cursor bs now msgs maxSeen).1,
        r.text ≠ "" ∧ cursor < r.message_id
        ∧ (∀ since, bs = some since → since ≤ r.published_at) := by
  intro msgs
  induction msgs with
  | nil => intro maxSeen r hr; simp [msgLoop] at hr
  | cons m rest ih =>
      intro maxSeen r hr
      simp only [msgLoop] at hr
      split at hr
      · simp at hr
      · rename_i hbreak
        split at hr
        · exact ih maxSeen r hr
        · rename_i htext
          split at hr
          · exact ih maxSeen r hr
          · rename_i hid
            simp only [List.mem_cons] at hr
            rcases hr with hr | hr
            · subst hr
              refine ⟨by simpa [stageRow] using htext, by simpa [stageRow] using lt_of_not_le hid, ?_⟩
              intro since hsince
              subst hsince
              simp only [decide_eq_true_eq] at hbreak
              simpa [stageRow] using le_of_not_lt hbreak
            · exact ih (max maxSeen m.id) r hr

/-- Auxiliary: the loop stages at most as many rows as it was given
messages. -/
theorem msgLoop_length (ch : Channel) (ent : Entity) (cursor : Int) (bs : Option Int) (now : Int) :
    ∀ (msgs : List FetchedMsg) (maxSeen : Int),
      (msgLoop ch ent cursor bs now msgs maxSeen).1.length ≤ msgs.length := by
  intro msgs
  induction msgs with
  | nil => intro maxSeen; simp [msgLoop]
  | cons m rest ih =>
      intro maxSeen
      simp only [msgLoop, List.length_cons]
      split
      · simp
      · split
        · exact le_trans (ih maxSeen) (Nat.le_succ _)
        · split
          · exact le_trans (ih maxSeen) (Nat.le_succ _)
          · simpa using Nat.succ_le_succ (ih (max maxSeen m.id))

/-- Auxiliary: the running max is at least its seed. -/
theorem foldMaxId_ge_init (c : Int) (rows : List PostRow) : c ≤ foldMaxId c rows := by
  induction rows generalizing c with
  | nil => simp [foldMaxId]
  | cons r rest ih =>
      simp only [foldMaxId, List.foldl_cons]
      exact le_trans (le_max_left c r.message_id) (ih (max c r.message_id))

/-- Auxiliary: the running max dominates every staged id. -/
theorem foldMaxId_ge_mem (c : Int) (rows : List PostRow) :
    ∀ r ∈ rows, r.message_id ≤ foldMaxId c rows := by
  induction rows generalizing c with
  | nil => intro r hr; simp at hr
  | cons x rest ih =>
      intro r hr
      simp only [foldMaxId, List.foldl_cons]
      rcases List.mem_cons.mp hr with hx | hx
      · subst hx
        exact le_trans (le_max_right c r.message_id) (foldMaxId_ge_init _ rest)
      · exact ih (max c x.message_id) r hx

/-- Auxiliary: the running max is the seed or some staged id. -/
theorem foldMaxId_mem (c : Int) (rows : List PostRow) :
    foldMaxId c rows = c ∨ ∃ r ∈ rows, foldMaxId c rows = r.message_id := by
  induction rows generalizing c with
  | nil => left; simp [foldMaxId]
  | cons x rest ih =>
      simp only [foldMaxId, List.foldl_cons]
      rcases ih (max c x.message_id) with h | ⟨r, hr, he⟩
      · rcases max_choice c x.message_id with hm | hm
        · left; simpa [foldMaxId, hm] using h
        · right
          exact ⟨x, List.mem_cons_self x rest, by simpa [foldMaxId, hm] using h⟩
      · right
        exact ⟨r, List.mem_cons_of_mem x hr, by simpa [foldMaxId] using he⟩

/-- Auxiliary: collapse of the cursor update when max_seen_id starts at the
cursor. -/
theorem ite_max_eq_fold (c : Int) (pr : List PostRow × Int) (h : pr.2 = foldMaxId c pr.1) :
    (if pr.2 > c then pr.2 else c) = foldMaxId c pr.1 := by
  by_cases hgt : pr.2 > c
  · simpa [hgt] using h
  · have h1 : foldMaxId c pr.1 ≤ c := h ▸ le_of_not_lt hgt
    simp only [hgt, if_false]
    exact (le_antisymm h1 (foldMaxId_ge_init c pr.1)).symm

/-- Auxiliary: the stored cursor after a parse step is the running max of
staged ids seeded with the effective cursor. -/
theorem parse_step_cursor_eq_fold (ch : Channel) (ent : Entity) (hasPosts : Bool)
    (now : Int) (stream : List FetchedMsg) :
    (parse_step ch ent hasPosts now stream).cursor_message_id
      = foldMaxId (effectiveCursor ch hasPosts) (parse_step ch ent hasPosts now stream).rows := by
  simp only [parse_step]
  exact ite_max_eq_fold _ _ (msgLoop_fold ch ent _ _ now _ _)

/-- C1 counterexample: in the reachable state where cursor_message_id = 100
but no Post rows exist for the channel, a parse step that sees only message
id 5 stores cursor 5, strictly below the prior 100, so the cursor is not
non-decreasing in that state. -/
theorem cursor_decreases_on_resync_state :
    storedCursor chCursor100 = 100
    ∧ (parse_step chCursor100 entDemo false 0 [msg5]).cursor_message_id = 5
    ∧ (parse_step chCursor100 entDemo false 0 [msg5]).cursor_message_id
        < storedCursor chCursor100 := by
  refine ⟨rfl, by decide, by decide⟩

/-- C1 amended: the cursor stored after a parse step is always at least the
effective cursor, and at least the previously stored cursor whenever the
first-parse resync did not trigger, that is, whenever Post rows exist for
the channel or the stored cursor was not positive. -/
theorem cursor_monotone_unless_resync (ch : Channel) (ent : Entity) (hasPosts : Bool)
    (now : Int) (stream : List FetchedMsg) :
    effectiveCursor ch hasPosts ≤ (parse_step ch ent hasPosts now stream).cursor_message_id
    ∧ (hasPosts = true ∨ storedCursor ch ≤ 0 →
        storedCursor ch ≤ (parse_step ch ent hasPosts now stream).cursor_message_id) := by
  have hbase : effectiveCursor ch hasPosts
      ≤ (parse_step ch ent hasPosts now stream).cursor_message_id := by
    rw [parse_step_cursor_eq_fold]
    exact foldMaxId_ge_init _ _
  refine ⟨hbase, ?_⟩
  intro h
  have heq : effectiveCursor ch hasPosts = storedCursor ch := by
    unfold effectiveCursor
    rcases h with h | h
    · simp [h]
    · have hno : ¬(storedCursor ch > 0 ∧ hasPosts = false) := by
        rintro ⟨h1, _⟩
        omega
      simp [hno]
  exact heq ▸ hbase

/-- Witness for C1 (amended): with posts present the cursor does not
decrease even when the stream only contains an id below the cursor. -/
theorem cursor_monotone_unless_resync_witness :
    storedCursor chCursor100
      ≤ (parse_step chCursor100 entDemo true 0 [msg5]).cursor_message_id :=
  (cursor_monotone_unless_resync chCursor100 entDemo true 0 [msg5]).2 (Or.inl rfl)

/-- Auxiliary: mode selection on a first parse with backfill enabled. -/
theorem parseMode_backfill (ch : Channel) (hasPosts : Bool) (now : Int)
    (stream : List FetchedMsg) (heff : effectiveCursor ch hasPosts ≤ 0)
    (hD : 0 < ch.backfill_days) :
    parseMode ch hasPosts now stream
      = (some (now - ch.backfill_days * 86400), stream.take 2000) := by
  have hcond : effectiveCursor ch hasPosts ≤ 0 ∧ max 0 ch.backfill_days > 0 :=
    ⟨heff, by omega⟩
  unfold parseMode
  rw [if_pos hcond, max_eq_right hD.le]

/-- Auxiliary: mode selection on a first parse with backfill disabled. -/
theorem parseMode_first20 (ch : Channel) (hasPosts : Bool) (now : Int)
    (stream : List FetchedMsg) (heff : effectiveCursor ch hasPosts ≤ 0)
    (hD0 : ch.backfill_days = 0) :
    parseMode ch hasPosts now stream = ((none : Option Int), stream.take 20) := by
  have hno : ¬(effectiveCursor ch hasPosts ≤ 0 ∧ max 0 ch.backfill_days > 0) := by
    rintro ⟨_, hgt⟩
    rw [hD0] at hgt
    omega
  unfold parseMode
  rw [if_neg hno, if_pos heff]

/-- C7: on a first parse (effective cursor 0) with backfill_days = D > 0 no
staged row has published_at below now - D days, and only the first 2000
stream messages are consulted; with backfill disabled (D = 0) only the
latest 20 stream messages are consulted. -/
theorem backfill_bound (ch : Channel) (ent : Entity) (hasPosts : Bool) (now : Int)
    (stream : List FetchedMsg) (heff : effectiveCursor ch hasPosts ≤ 0) :
    (0 < ch.backfill_days →
       (∀ r ∈ (parse_step ch ent hasPosts now stream).rows,
          now - ch.backfill_days * 86400 ≤ r.published_at)
       ∧ parse_step ch ent hasPosts now stream
           = parse_step ch ent hasPosts now (stream.take 2000)
       ∧ (parse_step ch ent hasPosts now stream).rows.length ≤ 2000)
    ∧ (ch.backfill_days = 0 →
       parse_step ch ent hasPosts now stream
           = parse_step ch ent hasPosts now (stream.take 20)
       ∧ (parse_step ch ent hasPosts now stream).rows.length ≤ 20) := by
  constructor
  · intro hD
    have hmode := parseMode_backfill ch hasPosts now stream heff hD
    have hmode2 := parseMode_backfill ch hasPosts now (stream.take 2000) heff hD
    refine ⟨?_, ?_, ?_⟩
    · intro r hr
      simp only [parse_step, hmode] at hr
      exact (msgLoop_rows_prop ch ent _ _ now _ _ r hr).2.2 _ rfl
    · simp only [parse_step, hmode, hmode2, List.take_take]
      norm_num
    · simp only [parse_step, hmode]
      exact le_trans (msgLoop_length ch ent _ _ now _ _)
        (List.length_take_le 2000 stream)
  · intro hD0
    have hmode := parseMode_first20 ch hasPosts now stream heff hD0
    have hmode2 := parseMode_first20 ch hasPosts now (stream.take 20) heff hD0
    constructor
    · simp only [parse_step, hmode, hmode2, List.take_take]
      norm_num
    · simp only [parse_step, hmode]
      exact le_trans (msgLoop_length ch ent _ _ now _ _)
        (List.length_take_le 20 stream)

/-- Witness for C7: a first parse with 2 days of backfill keeps the message
inside the window, and every staged row is dated at or after the threshold. -/
theorem backfill_bound_witness :
    ((0:Int) - 2 * 86400
        ≤ (stageRow chBackfill2d entDemo 0 (-1000) msgRecent9).published_at)
    ∧ (parse_step chBackfill2d entDemo false 0 [msgRecent9, msgOld1]).rows.length ≤ 2000 := by
  have h := (backfill_bound chBackfill2d entDemo false 0 [msgRecent9, msgOld1] (by decide)).1
    (by decide)
  exact ⟨h.1 (stageRow chBackfill2d entDemo 0 (-1000) msgRecent9) (by decide), h.2.2⟩

/-- C10: a message whose text normalizes to empty is never staged (every
staged row has non-empty normalized text) and never advances the cursor:
after a parse step cursor_message_id is exactly the running max of staged
ids seeded with the effective cursor, so it equals the maximum staged
message id when any row was staged and the prior effective cursor when none
was; ids not staged (such as empty-text messages above the cursor) remain
above the stored cursor and are fetched again on the next tick. -/
theorem empty_skip_and_cursor_is_max_staged (ch : Channel) (ent : Entity) (hasPosts : Bool)
    (now : Int) (stream : List FetchedMsg) :
    (∀ r ∈ (parse_step ch ent hasPosts now stream).rows,
        r.text ≠ "" ∧ effectiveCursor ch hasPosts < r.message_id)
    ∧ (parse_step ch ent hasPosts now stream).cursor_message_id
        = foldMaxId (effectiveCursor ch hasPosts) (parse_step ch ent hasPosts now stream).rows
    ∧ ((parse_step ch ent hasPosts now stream).rows = [] →
        (parse_step ch ent hasPosts now stream).cursor_message_id
          = effectiveCursor ch hasPosts)
    ∧ ((parse_step ch ent hasPosts now stream).rows ≠ [] →
        (∃ r ∈ (parse_step ch ent hasPosts now stream).rows,
            r.message_id = (parse_step ch ent hasPosts now stream).cursor_message_id)
        ∧ ∀ r ∈ (parse_step ch ent hasPosts now stream).rows,
            r.message_id ≤ (parse_step ch ent hasPosts now stream).cursor_message_id) := by
  have hfold := parse_step_cursor_eq_fold ch ent hasPosts now stream
  have hprop : ∀ r ∈ (parse_step ch ent hasPosts now stream).rows,
      r.text ≠ "" ∧ effectiveCursor ch hasPosts < r.message_id := by
    intro r hr
    simp only [parse_step] at hr
    have h := msgLoop_rows_prop ch ent _ _ now _ _ r hr
    exact ⟨h.1, h.2.1⟩
  refine ⟨hprop, hfold, ?_, ?_⟩
  · intro hnil
    rw [hfold, hnil]
    simp [foldMaxId]
  · intro hne
    constructor
    · rcases foldMaxId_mem (effectiveCursor ch hasPosts)
        (parse_step ch ent hasPosts now stream).rows with h | ⟨r, hr, he⟩
      · rcases List.exists_mem_of_ne_nil _ hne with ⟨r, hr⟩
        have hlt := (hprop r hr).2
        have hge := foldMaxId_ge_mem (effectiveCursor ch hasPosts)
          (parse_step ch ent hasPosts now stream).rows r hr
        rw [h] at hge
        omega
      · exact ⟨r, hr, by rw [hfold, he]⟩
    · intro r hr
      rw [hfold]
      exact foldMaxId_ge_mem _ _ r hr

/-- Witness for C10: with cursor 3 and posts present, the empty-text message
id 6 is skipped while message id 7 is staged with non-empty text above the
cursor. -/
theorem empty_skip_and_cursor_is_max_staged_witness :
    (stageRow chCursor3 entDemo 0 2 msg7).text ≠ ""
    ∧ effectiveCursor chCursor3 true < (stageRow chCursor3 entDemo 0 2 msg7).message_id :=
  (empty_skip_and_cursor_is_max_staged chCursor3 entDemo true 0 [msgBlank6, msg7]).1
    (stageRow chCursor3 entDemo 0 2 msg7) (by decide)

/-- Auxiliary: upsert keeps the row status field it writes. -/
theorem applyMembershipStatus_status (m : Membership) (s : AccountChannelStatus)
    (note : String) (now : Int) : (applyMembershipStatus m s note now).status = s := rfl

/-- Auxiliary: upsert keeps the account id of the row. -/
theorem applyMembershipStatus_account (m : Membership) (s : AccountChannelStatus)
    (note : String) (now : Int) :
    (applyMembershipStatus m s note now).account_id = m.account_id := rfl

/-- Auxiliary: upsert keeps the channel id of the row. -/
theorem applyMembershipStatus_channel (m : Membership) (s : AccountChannelStatus)
    (note : String) (now : Int) :
    (applyMembershipStatus m s note now).channel_id = m.channel_id := rfl

/-- Auxiliary: upserting a non-pending status never increases the pending
row count of any channel. -/
theorem pendingCount_upsert_nonpending (db : List Membership) (a c q : Nat)
    (s : AccountChannelStatus) (note : String) (now : Int)
    (hs : isPendingStatus s = false) :
    pendingCount (upsert_membership db a c s note now) q ≤ pendingCount db q := by
  unfold upsert_membership
  split
  · unfold pendingCount
    rw [List.countP_map]
    apply List.countP_mono_left
    intro m hm hpm
    simp only [Function.comp] at hpm
    split at hpm
    · rw [Bool.and_eq_true, applyMembershipStatus_status] at hpm
      exact absurd hpm.2 (by simp [hs])
    · exact hpm
  · unfold pendingCount
    rw [List.countP_append]
    have hnew : (decide ((applyMembershipStatus (blankMembership a c) s note now).channel_id = q)
        && isPendingStatus (applyMembershipStatus (blankMembership a c) s note now).status)
        = false := by
      rw [applyMembershipStatus_status, hs, Bool.and_false]
    simp [hnew]

/-- Auxiliary: an upsert for channel c leaves the pending count of every
other channel unchanged. -/
theorem pendingCount_upsert_other (db : List Membership) (a c q : Nat)
    (s : AccountChannelStatus) (note : String) (now : Int) (hq : q ≠ c) :
    pendingCount (upsert_membership db a c s note now) q = pendingCount db q := by
  unfold upsert_membership
  split
  · unfold pendingCount
    rw [List.countP_map]
    apply List.countP_congr
    intro m hm
    simp only [Function.comp]
    split
    · rename_i hmatch
      have hch : m.channel_id ≠ q := by rw [hmatch.2]; exact fun he => hq he.symm
      rw [applyMembershipStatus_channel]
      simp [hch]
    · exact Iff.rfl
  · unfold pendingCount
    rw [List.countP_append]
    have hnew : (decide ((applyMembershipStatus (blankMembership a c) s note now).channel_id = q)
        && isPendingStatus (applyMembershipStatus (blankMembership a c) s note now).status)
        = false := by
      rw [applyMembershipStatus_channel]
      have : (blankMembership a c).channel_id = c := rfl
      rw [this]
      simp
      intro he
      exact absurd he.symm hq
    simp [hnew]

/-- Auxiliary: with no pending row for channel c and at most one row for the
(account, channel) pair, any upsert leaves at most one pending row for c. -/
theorem pendingCount_upsert_of_noPending (db : List Membership) (a c : Nat)
    (s : AccountChannelStatus) (note : String) (now : Int)
    (hguard : anyPendingForChannel db c = false)
    (huniq : accountChannelRowCount db a c ≤ 1) :
    pendingCount (upsert_membership db a c s note now) c ≤ 1 := by
  have hall : ∀ m ∈ db, ¬((fun m => decide (m.channel_id = c) && isPendingStatus m.status) m = true) := by
    simpa [anyPendingForChannel] using hguard
  unfold upsert_membership
  split
  · unfold pendingCount
    rw [List.countP_map]
    refine le_trans (List.countP_mono_left ?_) huniq
    intro m hm hpm
    simp only [Function.comp] at hpm
    split at hpm
    · rename_i hmatch
      simp [hmatch.1, hmatch.2]
    · exact absurd hpm (by simpa using hall m hm)
  · unfold pendingCount
    rw [List.countP_append]
    have hzero : db.countP (fun m => decide (m.channel_id = c) && isPendingStatus m.status) = 0 :=
      List.countP_eq_zero.mpr (by simpa using hall)
    rw [hzero]
    have hone := @List.countP_le_length Membership
      (fun m => decide (m.channel_id = c) && isPendingStatus m.status)
      [applyMembershipStatus (blankMembership a c) s note now]
    simpa using hone

/-- Auxiliary: pending-count preservation for an arbitrary upsert gated by
the guardrail. -/
theorem atMostOnePending_upsert_guarded (db : List Membership) (a c q : Nat)
    (s : AccountChannelStatus) (note : String) (now : Int)
    (hguard : anyPendingForChannel db c = false)
    (huniq : accountChannelRowCount db a c ≤ 1)
    (hq : atMostOnePending db q) :
    atMostOnePending (upsert_membership db a c s note now) q := by
  by_cases hqc : q = c
  · subst hqc
    exact pendingCount_upsert_of_noPending db a q s note now hguard huniq
  · unfold atMostOnePending
    rw [pendingCount_upsert_other db a c q s note now hqc]
    exact hq

/-- Auxiliary: pending-count preservation for a non-pending upsert. -/
theorem atMostOnePending_upsert_nonpending (db : List Membership) (a c q : Nat)
    (s : AccountChannelStatus) (note : String) (now : Int)
    (hs : isPendingStatus s = false) (hq : atMostOnePending db q) :
    atMostOnePending (upsert_membership db a c s note now) q :=
  le_trans (pendingCount_upsert_nonpending db a c q s note now hs) hq

/-- Auxiliary: the dispatch calls the join service exactly for an unknown
membership, or an error membership past its retry window, and only with no
pending row for the channel. -/
theorem maintenanceAction_callJoin_iff (ms : AccountChannelStatus) (lc : Option Int)
    (ap : Bool) (now : Int) :
    maintenanceAction ms lc ap now = MaintAction.callJoinService
      ↔ ((ms = AccountChannelStatus.unknown
            ∨ (ms = AccountChannelStatus.error
               ∧ should_recheck lc ERROR_RETRY_EVERY now = true))
         ∧ ap = false) := by
  unfold maintenanceAction
  cases ms <;> cases ap <;> cases hsr : should_recheck lc ERROR_RETRY_EVERY now <;>
    simp [hsr] <;> split <;> simp_all

/-- Auxiliary: the first component of a maintenance iteration is its
dispatch action. -/
theorem ensure_membership_step_action (db : List Membership) (a c : Nat)
    (o : MaintOracle) (now : Int) :
    (ensure_membership_step db a c o now).1
      = maintenanceAction (memStatusOrUnknown db a c) (memLastChecked db a c)
          (anyPendingForChannel db c) now := by
  unfold ensure_membership_step
  cases hact : maintenanceAction (memStatusOrUnknown db a c) (memLastChecked db a c)
      (anyPendingForChannel db c) now <;> simp [hact]

/-- C2: invite-approval guardrail.  Both the parser join phase and the
maintenance pass preserve the at-most-one-pending-membership-per-channel
invariant (given the schema uniqueness of the (account, channel) row), and
whenever any membership row of a channel is pending, the parser join phase
skips without importing (so the database is unchanged) and the maintenance
dispatch never calls the join service; every other membership write of the
parser (joined, forbidden, error evidence) also preserves the invariant. -/
theorem invite_guardrail (db : List Membership) (accountId channelId qchannelId : Nat)
    (joinOutcome : ChannelAccessStatus) (note : String) (o : MaintOracle) (now : Int)
    (huniq : accountChannelRowCount db accountId channelId ≤ 1) :
    (atMostOnePending db qchannelId →
        atMostOnePending (parserJoinAttempt db accountId channelId joinOutcome note now).2
          qchannelId)
    ∧ (atMostOnePending db qchannelId →
        atMostOnePending (ensure_membership_step db accountId channelId o now).2 qchannelId)
    ∧ (anyPendingForChannel db channelId = true →
        (parserJoinAttempt db accountId channelId joinOutcome note now).2 = db
        ∧ ((parserJoinAttempt db accountId channelId joinOutcome note now).1
              = JoinAttemptAction.skippedOwnPending
           ∨ (parserJoinAttempt db accountId channelId joinOutcome note now).1
              = JoinAttemptAction.skippedGuardrail))
    ∧ (anyPendingForChannel db channelId = true →
        (ensure_membership_step db accountId channelId o now).1 ≠ MaintAction.callJoinService)
    ∧ (∀ s, isPendingStatus s = false → atMostOnePending db qchannelId →
        atMostOnePending (upsert_membership db accountId channelId s note now) qchannelId) := by
  refine ⟨?_, ?_, ?_, ?_, ?_⟩
  · intro hq
    by_cases h1 : memStatusFor db accountId channelId = some AccountChannelStatus.join_requested
        ∨ memStatusFor db accountId channelId = some AccountChannelStatus.pending_approval
    · simpa [parserJoinAttempt, h1] using hq
    · cases hpc : anyPendingForChannel db channelId
      · cases joinOutcome <;>
          first
            | simpa [parserJoinAttempt, h1, hpc, membershipStatusOfJoinOutcome] using hq
            | simpa [parserJoinAttempt, h1, hpc, membershipStatusOfJoinOutcome] using
                atMostOnePending_upsert_guarded db accountId channelId qchannelId
                  _ note now hpc huniq hq
      · simpa [parserJoinAttempt, h1, hpc] using hq
  · intro hq
    unfold ensure_membership_step
    cases hact : maintenanceAction (memStatusOrUnknown db accountId channelId)
        (memLastChecked db accountId channelId) (anyPendingForChannel db channelId) now
    case recheckDialogs =>
      by_cases hd : o.entityInDialogs = true
      · simpa [hd] using atMostOnePending_upsert_nonpending db accountId channelId qchannelId
          AccountChannelStatus.joined "entity found in dialogs (approved)" now (by decide) hq
      · simp only [Bool.not_eq_true] at hd
        simpa [hd] using hq
    case refreshJoined =>
      by_cases hd : o.entityInDialogs = true
      · simpa [hd] using hq
      · simp only [Bool.not_eq_true] at hd
        simpa [hd] using atMostOnePending_upsert_nonpending db accountId channelId qchannelId
          AccountChannelStatus.error "joined previously but missing from dialogs" now
          (by decide) hq
    case callJoinService =>
      have hguard : anyPendingForChannel db channelId = false :=
        ((maintenanceAction_callJoin_iff _ _ _ _).mp hact).2
      by_cases ha : o.authorized = true
      · simpa [ha] using atMostOnePending_upsert_guarded db accountId channelId qchannelId
          (maintMembershipStatusOfOutcome o.joinOutcome) o.joinNote now hguard huniq hq
      · simp only [Bool.not_eq_true] at ha
        simpa [ha] using hq
    all_goals simpa using hq
  · intro hpend
    by_cases h1 : memStatusFor db accountId channelId = some AccountChannelStatus.join_requested
        ∨ memStatusFor db accountId channelId = some AccountChannelStatus.pending_approval
    · exact ⟨by simp [parserJoinAttempt, h1], Or.inl (by simp [parserJoinAttempt, h1])⟩
    · exact ⟨by simp [parserJoinAttempt, h1, hpend],
        Or.inr (by simp [parserJoinAttempt, h1, hpend])⟩
  · intro hpend
    rw [ensure_membership_step_action, hpend]
    intro hcj
    have hfalse := ((maintenanceAction_callJoin_iff _ _ _ _).mp hcj).2
    exact Bool.noConfusion hfalse
  · intro s hs hq
    exact atMostOnePending_upsert_nonpending db accountId channelId qchannelId s note now hs hq

/-- Witness for C2: on an empty membership table a join request leaves at
most one pending row, and with another account pending the parser leaves
the table unchanged. -/
theorem invite_guardrail_witness :
    atMostOnePending (parserJoinAttempt [] 1 9 ChannelAccessStatus.join_requested "req" 0).2 9
    ∧ (parserJoinAttempt [memPendingOther] 1 9 ChannelAccessStatus.join_requested "req" 0).2
        = [memPendingOther] := by
  constructor
  · exact (invite_guardrail [] 1 9 9 ChannelAccessStatus.join_requested "req" oracleJoin 0
      (by decide)).1 (by decide)
  · exact ((invite_guardrail [memPendingOther] 1 9 9 ChannelAccessStatus.join_requested "req"
      oracleJoin 0 (by decide)).2.2.1 (by decide)).1

/-- C8 counterexample: a membership row with status unknown whose
last_checked_at is 60 seconds old (well inside the 30-minute window) still
reaches the join service, because the retry window gates only status error. -/
theorem unknown_membership_joined_inside_window :
    (ensure_membership_step [memUnknownRecent] 1 7 oracleJoin 1000).1
      = MaintAction.callJoinService
    ∧ should_recheck (memLastChecked [memUnknownRecent] 1 7) ERROR_RETRY_EVERY 1000 = false := by
  decide

/-- C8 amended: the 30-minute retry window gates the join service only for
memberships with status error (join is called for an error membership only
when last_checked_at is unset or 30 minutes old); a membership with status
unknown (or no row) is attempted without any time gate, subject only to the
pending guardrail. -/
theorem maintenance_join_gating (db : List Membership) (accountId channelId : Nat)
    (o : MaintOracle) (now : Int) :
    ((ensure_membership_step db accountId channelId o now).1 = MaintAction.callJoinService →
        (memStatusOrUnknown db accountId channelId = AccountChannelStatus.unknown
          ∨ memStatusOrUnknown db accountId channelId = AccountChannelStatus.error)
        ∧ anyPendingForChannel db channelId = false
        ∧ (memStatusOrUnknown db accountId channelId = AccountChannelStatus.error →
            should_recheck (memLastChecked db accountId channelId) ERROR_RETRY_EVERY now
              = true))
    ∧ (memStatusOrUnknown db accountId channelId = AccountChannelStatus.unknown →
        anyPendingForChannel db channelId = false →
        (ensure_membership_step db accountId channelId o now).1
          = MaintAction.callJoinService) := by
  constructor
  · intro hcj
    rw [ensure_membership_step_action] at hcj
    rcases (maintenanceAction_callJoin_iff _ _ _ _).mp hcj with ⟨h1, h2⟩
    rcases h1 with h1 | ⟨h1, h3⟩
    · exact ⟨Or.inl h1, h2, fun he => absurd (h1.symm.trans he) (by decide)⟩
    · exact ⟨Or.inr h1, h2, fun _ => h3⟩
  · intro hunk hap
    rw [ensure_membership_step_action]
    exact (maintenanceAction_callJoin_iff _ _ _ _).mpr ⟨Or.inl hunk, hap⟩

/-- Witness for C8 (amended): with no membership row (status unknown) and no
pending row the dispatch calls the join service; an error row inside the
window does not reach join. -/
theorem maintenance_join_gating_witness :
    (ensure_membership_step [] 1 7 oracleJoin 1000).1 = MaintAction.callJoinService :=
  (maintenance_join_gating [] 1 7 oracleJoin 1000).2 rfl rfl

/-- C5: the UserDeactivated handler quarantines the account with status
forbidden and is_active false, fires both notifier calls, continues the
attempt loop, and adds the account id to the exclusion set, so any account
the selector subsequently returns has a different id. -/
theorem user_deactivated_quarantine (acc : Account) (exclude : List Nat) (note : String)
    (now : Int) (accounts : List Account) (memberships : List Membership) (ch : Channel)
    (b : Account)
    (hpick : pick_account_for_channel accounts memberships ch
        (handle_user_deactivated acc exclude note now).exclude now = some b) :
    (handle_user_deactivated acc exclude note now).account.status = AccountStatus.forbidden
    ∧ (handle_user_deactivated acc exclude note now).account.is_active = false
    ∧ (handle_user_deactivated acc exclude note now).notified_admin = true
    ∧ (handle_user_deactivated acc exclude note now).notified_team = true
    ∧ (handle_user_deactivated acc exclude note now).continues = true
    ∧ acc.id ∈ (handle_user_deactivated acc exclude note now).exclude
    ∧ b.id ≠ acc.id := by
  refine ⟨rfl, rfl, rfl, rfl, rfl, List.mem_cons_self _ _, ?_⟩
  have hmem := chooseMin_mem _ _ _ hpick
  have hc := mem_selectorCandidates accounts memberships ch _ now b hmem
  intro hbid
  have hcontains := hc.2.2
  rw [hbid] at hcontains
  simp [handle_user_deactivated] at hcontains

/-- Witness for C5: handling a deactivation of the first fixture account
quarantines it and the selector then picks the other account. -/
theorem user_deactivated_quarantine_witness :
    (handle_user_deactivated accReady1 [] "deactivated" 0).account.status
        = AccountStatus.forbidden
    ∧ (handle_user_deactivated accReady1 [] "deactivated" 0).account.is_active = false
    ∧ accReady2.id ≠ accReady1.id := by
  have h := user_deactivated_quarantine accReady1 [] "deactivated" 0
    [accReady1, accReady2] [] chPub accReady2 (by decide)
  exact ⟨h.1, h.2.1, h.2.2.2.2.2.2⟩

/-- C9 counterexample: when Bot construction raises (for example a malformed
token), both notify_admin and notify_team propagate the exception, because
the Bot is constructed outside the try block; so they do not return normally
for every outcome of constructing the bot. -/
theorem notify_raises_on_bot_ctor_failure :
    notify_admin envBotFails = PyResult.raised
    ∧ notify_team envBotFails = PyResult.raised := ⟨rfl, rfl⟩

/-- Auxiliary: the team loop attempts every recipient and delivers exactly
those whose send succeeds, independent of other recipients. -/
theorem team_send_loop_spec (env : NotifyEnv) (l : List Int) :
    team_send_loop env l = { attempted := l, delivered := l.filter env.send_ok } := by
  induction l with
  | nil => rfl
  | cons u rest ih =>
      simp [team_send_loop, ih, List.filter_cons]

/-- C9 amended: provided Bot construction succeeds, notify_admin and
notify_team return normally for every outcome of the store read, the sends
and the close; and when the store read succeeds notify_team attempts every
truthy staff recipient regardless of per-recipient send failures, delivering
to exactly those whose send succeeds. -/
theorem notify_never_raises_after_ctor (env : NotifyEnv) (h : env.bot_ctor_ok = true) :
    notify_admin env ≠ PyResult.raised
    ∧ notify_team env ≠ PyResult.raised
    ∧ (env.store_ok = true →
        notify_team env
          = PyResult.ok
              { attempted := team_recipients env
                delivered := (team_recipients env).filter env.send_ok }) := by
  refine ⟨?_, ?_, ?_⟩
  · intro hcon
    cases hadm : env.admin_chat_id with
    | none => simp [notify_admin, hadm] at hcon
    | some c =>
        by_cases hc : c = 0
        · simp [notify_admin, hadm, hc] at hcon
        · simp [notify_admin, hadm, hc, h] at hcon
  · intro hcon
    unfold notify_team at hcon
    rw [h] at hcon
    by_cases hs : env.store_ok = false <;> simp [hs] at hcon
  · intro hstore
    unfold notify_team
    rw [h, hstore]
    simp [team_send_loop_spec]

/-- Witness for C9 (amended): with a working Bot, one falsy recipient row
and one failing send, notify_team still returns normally, attempts both
truthy recipients, and delivers to the one whose send succeeded. -/
theorem notify_never_raises_after_ctor_witness :
    notify_team envTeamOk
      = PyResult.ok { attempted := [11, 12], delivered := [11] } := by
  have h := (notify_never_raises_after_ctor envTeamOk rfl).2.2 rfl
  rw [h]
  rfl

end TgParser
